import Mathlib

set_option maxRecDepth 100000

/-!
# Verification of imapbackup.py (folder scanning, archive codec, retry logic)

This file gives a shallow embedding, in Lean 4, of the functional core of
`imapbackup.py`: the retry wrapper (`retry_on_network_error`), the identity
resolution used by `scan_folder` (native `Message-Id` regex match plus the
SHA-1-based synthesized fallback), the batched remote scanner, the local
archive scanner (`scan_file`), the archive encoder inside
`download_messages`, the folder-name mapper from `get_names`, and the
per-folder loop of `process_account`.

Strings from the Python source are modelled as `List Char`; byte strings as
`List Nat` (each element < 256).  Machine arithmetic in SHA-1 is modelled on
`Nat` with explicit reduction modulo `2 ^ 32`.
-/

namespace Imapbackup

/-- Python strings are modelled as lists of characters. -/
abbrev Str := List Char

/-! ## SHA-1 (hashlib.sha1), modelled on `Nat` with explicit mod 2^32 -/

/-- Truncate to a 32-bit word. -/
def w32 (n : Nat) : Nat := n % 4294967296

/-- 32-bit left rotation by `k` (for `n < 2^32`). -/
def rotl (k n : Nat) : Nat := w32 ((n <<< k) ||| (n >>> (32 - k)))

/-- Big-endian byte decomposition of `n` into `k` bytes. -/
def beBytes : Nat → Nat → List Nat
  | 0, _ => []
  | k + 1, n => (n >>> (8 * k)) % 256 :: beBytes k n

/-- Group a byte list into big-endian 32-bit words (4 bytes each). -/
def toWords : List Nat → List Nat
  | a :: b :: c :: d :: rest => (((a * 256 + b) * 256 + c) * 256 + d) :: toWords rest
  | _ => []

/-- SHA-1 padding: append `0x80`, zero bytes to 56 mod 64, then the 8-byte
big-endian bit length of the original message. -/
def sha1pad (msg : List Nat) : List Nat :=
  msg ++ 128 :: List.replicate ((119 - msg.length % 64) % 64) 0
      ++ beBytes 8 (msg.length * 8)

/-- Split a byte list into chunks of 64 bytes (fuel-driven structural
recursion; `fuel = l.length` always suffices since each step drops 64). -/
def chunks64Go : Nat → List Nat → List (List Nat)
  | _, [] => []
  | 0, _ => []
  | fuel + 1, x :: xs => ((x :: xs).take 64) :: chunks64Go fuel ((x :: xs).drop 64)

/-- Split a byte list into chunks of 64 bytes. -/
def chunks64 (l : List Nat) : List (List Nat) := chunks64Go l.length l

/-- One step of the SHA-1 message-schedule extension: append
`rotl 1 (w[n-3] xor w[n-8] xor w[n-14] xor w[n-16])`. -/
def extendStep (w : List Nat) : List Nat :=
  let n := w.length
  w ++ [rotl 1 ((((w.getD (n - 3) 0) ^^^ (w.getD (n - 8) 0)) ^^^ (w.getD (n - 14) 0)) ^^^ (w.getD (n - 16) 0))]

/-- Apply the extension step `k` times (from 16 words up to 80). -/
def extendN : Nat → List Nat → List Nat
  | 0, w => w
  | k + 1, w => extendN k (extendStep w)

/-- Round function and constant for SHA-1 round `i`. -/
def sha1fk (i b c d : Nat) : Nat × Nat :=
  if i < 20 then ((b &&& c) ||| ((b ^^^ 4294967295) &&& d), 1518500249)
  else if i < 40 then ((b ^^^ c) ^^^ d, 1859775393)
  else if i < 60 then ((b &&& c) ||| ((b &&& d) ||| (c &&& d)), 2400959708)
  else ((b ^^^ c) ^^^ d, 3395469782)

/-- One SHA-1 compression round. -/
def sha1round (st : Nat × Nat × Nat × Nat × Nat) (iw : Nat × Nat) :
    Nat × Nat × Nat × Nat × Nat :=
  let (a, b, c, d, e) := st
  let (f, k) := sha1fk iw.1 b c d
  (w32 (rotl 5 a + f + e + k + iw.2), a, rotl 30 b, c, d)

/-- Process one 64-byte chunk, updating the five word state. -/
def sha1chunk (h : Nat × Nat × Nat × Nat × Nat) (chunk : List Nat) :
    Nat × Nat × Nat × Nat × Nat :=
  let w := extendN 64 (toWords chunk)
  let fin := ((List.range 80).zip w).foldl sha1round h
  (w32 (h.1 + fin.1), w32 (h.2.1 + fin.2.1), w32 (h.2.2.1 + fin.2.2.1),
   w32 (h.2.2.2.1 + fin.2.2.2.1), w32 (h.2.2.2.2 + fin.2.2.2.2))

/-- SHA-1 digest of a byte list, as 20 bytes. -/
def sha1 (msg : List Nat) : List Nat :=
  let h := (chunks64 (sha1pad msg)).foldl sha1chunk
    (1732584193, 4023233417, 2562383102, 271733878, 3285377520)
  beBytes 4 h.1 ++ beBytes 4 h.2.1 ++ beBytes 4 h.2.2.1
    ++ beBytes 4 h.2.2.2.1 ++ beBytes 4 h.2.2.2.2

/-- Lowercase hex digit. -/
def hexDigit (n : Nat) : Char := if n < 10 then Char.ofNat (48 + n) else Char.ofNat (87 + n)

/-- Lowercase hex string of a byte list (`hexdigest()`). -/
def hexdigest (bs : List Nat) : Str :=
  bs.flatMap (fun b => [hexDigit (b / 16), hexDigit (b % 16)])

/-! ## UTF-8 encoding (str.encode in Python) -/

/-- UTF-8 encoding of one character. -/
def utf8Char (c : Char) : List Nat :=
  let n := c.toNat
  if n < 128 then [n]
  else if n < 2048 then [192 ||| (n >>> 6), 128 ||| (n &&& 63)]
  else if n < 65536 then
    [224 ||| (n >>> 12), 128 ||| ((n >>> 6) &&& 63), 128 ||| (n &&& 63)]
  else
    [240 ||| (n >>> 18), 128 ||| ((n >>> 12) &&& 63),
     128 ||| ((n >>> 6) &&& 63), 128 ||| (n &&& 63)]

/-- UTF-8 encoding of a string. -/
def utf8 (s : Str) : List Nat := s.flatMap utf8Char

/-! ## String helpers modelling the Python string operations used -/

/-- Python whitespace (str.strip and the regex class \s, ASCII range). -/
def isPyWS (c : Char) : Bool :=
  c = ' ' || c = '\t' || c = '\n' || c = '\r' || c = '\x0b' || c = '\x0c'

/-- Python str.strip(): drop leading and trailing whitespace. -/
def pyStrip (s : Str) : Str := ((s.dropWhile isPyWS).reverse.dropWhile isPyWS).reverse

/-- `BLANKS_RE.sub(' ', s)` with `BLANKS_RE = re.compile(r'\s+')`: replace
each maximal run of whitespace by a single space.  The boolean argument
tracks whether the previous character was whitespace. -/
def normBlanksGo (prevWS : Bool) : Str → Str
  | [] => []
  | c :: rest =>
    if isPyWS c then
      if prevWS then normBlanksGo true rest else ' ' :: normBlanksGo true rest
    else c :: normBlanksGo false rest

/-- Collapse whitespace runs to single spaces (`BLANKS_RE.sub(' ', s)`). -/
def normBlanks (s : Str) : Str := normBlanksGo false s

/-- Python `s.replace('\r\n', '\t')`: left-to-right, non-overlapping. -/
def replaceCRLFtab : Str → Str
  | '\r' :: '\n' :: rest => '\t' :: replaceCRLFtab rest
  | c :: rest => c :: replaceCRLFtab rest
  | [] => []

/-- Python `pat in s` substring test. -/
def isSubstring (pat s : Str) : Bool :=
  (List.range (s.length + 1)).any (fun i => pat.isPrefixOf (s.drop i))

/-! ## Identity resolution (scan_folder, lines 1014-1048) -/

/-- `re.match` against `MSGID_RE = re.compile(r"^Message-Id: (.+)",
re.IGNORECASE + re.MULTILINE)`.  `re.match` anchors at position 0 (MULTILINE
is irrelevant there): the string must begin with `Message-Id: `
case-insensitively, and group 1 is the maximal nonempty run of non-newline
characters that follows. -/
def msgidMatch (l : Str) : Option Str :=
  if (l.take 12).map Char.toLower = "message-id: ".data then
    match (l.drop 12).takeWhile (fun c => c ≠ '\n') with
    | [] => none
    | r => some r
  else none

/-- Native identity resolution in scan_folder: `header = data_str.strip()`,
`header = BLANKS_RE.sub(' ', header)`, then `MSGID_RE.match(header).group(1)`
(`none` models the AttributeError taken when the regex does not match). -/
def resolveNative (dataStr : Str) : Option Str :=
  msgidMatch (normBlanks (pyStrip dataStr))

/-- The namespace token used to synthesize Message-Ids. -/
def UUID : Str := "19AF1258-1AAF-44EF-9D9A-731079D6FAD7".data

/-- Canonicalization applied to the fallback header block before hashing:
`header = data_str.strip()` then `header.replace('\r\n', '\t')`. -/
def canonHeaders (dataStr : Str) : Str := replaceCRLFtab (pyStrip dataStr)

/-- Synthesized identity (scan_folder lines 1041-1046):
`'<' + UUID + '.' + hashlib.sha1(header).hexdigest() + '>'` where `header`
is the canonicalized fallback header block encoded as UTF-8. -/
def synthId (dataStr : Str) : Str :=
  '<' :: (UUID ++ '.' :: (hexdigest (sha1 (utf8 (canonHeaders dataStr))) ++ ['>']))

/-! ## Batched remote scanning (scan_folder, lines 936-1074) -/

/-- Per-message data visible to scan_folder.  `idHeaderRaw` is
`str(data[2*i][1], 'utf-8', 'replace')` for this message from the batched
`BODY.PEEK[HEADER.FIELDS (MESSAGE-ID)]` fetch (`none` models the
IndexError/TypeError path when the batch data cannot be indexed);
`altFetch` is the per-message fallback fetch of
`BODY[HEADER.FIELDS (FROM TO CC DATE SUBJECT)]` (`none` models a failed
fetch, a non-OK status, or unreadable data). -/
structure FolderMsg where
  idHeaderRaw : Option Str
  altFetch : Option Str

/-- Key membership in the identity map (Python `msg_id in messages.keys()`). -/
def keyMem (x : Str) : List (Str × Nat) → Bool
  | [] => false
  | p :: ps => x == p.1 || keyMem x ps

/-- Native-path insertion (scan_folder lines 1020-1023): inserted only when
the key is absent ("avoid adding dupes": the first sequence number wins). -/
def insertNative (mp : List (Str × Nat)) (x : Str) (num : Nat) : List (Str × Nat) :=
  if keyMem x mp then mp else mp ++ [(x, num)]

/-- Synthesized-path insertion (scan_folder lines 1045-1046): plain dict
assignment `messages[...] = num`, which overwrites the stored sequence
number when the key already exists, and appends otherwise. -/
def insertSynth (mp : List (Str × Nat)) (x : Str) (num : Nat) : List (Str × Nat) :=
  if keyMem x mp then mp.map (fun p => if p.1 == x then (p.1, num) else p)
  else mp ++ [(x, num)]

/-- Processing of one message within a batch (scan_folder lines 1012-1053):
read the batched header data, try the native Message-Id match, and fall
back to fetching the alternate header set and synthesizing an identity. -/
def processMsg (mp : List (Str × Nat)) (num : Nat) (m : FolderMsg) : List (Str × Nat) :=
  match m.idHeaderRaw with
  | none => mp
  | some ds =>
    match resolveNative ds with
    | some mid => insertNative mp mid num
    | none =>
      match m.altFetch with
      | none => mp
      | some hs => insertSynth mp (synthId hs) num

/-- Module-level batch size constant. -/
def FETCH_BATCH_SIZE : Nat := 1000

/-- The contiguous batch ranges issued by
`for batch_start in range(1, num_msgs + 1, K)` with
`batch_end = min(batch_start + K - 1, num_msgs)`; the Python range has
exactly `ceil(n / K) = (n + K - 1) / K` elements. -/
def batchRanges (n K : Nat) : List (Nat × Nat) :=
  (List.range' 1 ((n + K - 1) / K) K).map (fun s => (s, min (s + K - 1) n))

/-- Fold of `processMsg` over the message numbers of one batch range. -/
def processBatch (msgs : Nat → FolderMsg) (mp : List (Str × Nat)) (r : Nat × Nat) :
    List (Str × Nat) :=
  (List.range' r.1 (r.2 + 1 - r.1)).foldl (fun mp num => processMsg mp num (msgs num)) mp

/-- The identity map accumulated by scan_folder's batched loop. -/
def scanFolderBatched (msgs : Nat → FolderMsg) (n K : Nat) : List (Str × Nat) :=
  (batchRanges n K).foldl (processBatch msgs) []

/-- Lookup of the sequence number bound to an identity in the map. -/
def lookup? : List (Str × Nat) → Str → Option Nat
  | [], _ => none
  | p :: ps, x => if p.1 == x then some p.2 else lookup? ps x

/-- Outcome of selecting the folder (the retry-wrapped `server.select`).
`netError` models an imaplib/socket error that persists through the
retries; `otherError` models any other exception; `response` carries the
status `typ` and the parsed `int(data[0])` (`none` when the count cannot
be parsed). -/
inductive SelectOutcome where
  | netError (msg : Str)
  | otherError (msg : Str)
  | response (typ : Str) (countField : Option Nat)

/-- A remote folder as seen by scan_folder. -/
structure Folder where
  select : SelectOutcome
  batchFail : Option Str
  msgs : Nat → FolderMsg

/-- Python exceptions that can escape a folder's processing:
`SkipFolderException` versus anything else. -/
inductive PyErr where
  | skipFolder (msg : Str)
  | otherExc (msg : Str)
deriving DecidableEq

/-- scan_folder (lines 936-1074): select the folder (read-only, through the
retry wrapper), parse the message count, then scan in batches.  Every
failure of selection, count parsing, or a batched header fetch is raised
as `SkipFolderException`; the generic handler at lines 1062-1066 converts
any remaining exception to `SkipFolderException` as well. -/
def scan_folder (f : Folder) (K : Nat) : Except PyErr (List (Str × Nat)) :=
  match f.select with
  | .netError m => .error (.skipFolder ("SELECT failed after retries: ".data ++ m))
  | .otherError m => .error (.skipFolder ("Unexpected error selecting folder: ".data ++ m))
  | .response typ cnt =>
    if typ ≠ "OK".data then .error (.skipFolder ("SELECT failed: ".data ++ typ))
    else
      match cnt with
      | none => .error (.skipFolder "Cannot parse message count".data)
      | some n =>
        match f.batchFail with
        | some m => .error (.skipFolder ("FETCH failed: ".data ++ m))
        | none => .ok (scanFolderBatched f.msgs n K)

/-- The folder's selection phase fails: a persistent network error, an
unexpected exception, a non-OK status, or an unparseable message count. -/
def SelectFails (f : Folder) : Prop :=
  match f.select with
  | .netError _ => True
  | .otherError _ => True
  | .response typ cnt => typ ≠ "OK".data ∨ cnt = none

/-- A concrete three-message folder (every message carries the same native
Message-Id), used to instantiate the batching theorem. -/
def smallFolder : Folder :=
  { select := .response "OK".data (some 3), batchFail := none,
    msgs := fun _ =>
      { idHeaderRaw := some "Message-Id: <a@x>\r\n\r\n".data, altFetch := none } }

/-! ## Retry wrapper (retry_on_network_error, lines 165-208) -/

/-- Outcome of calling the wrapped operation on a given 0-based attempt:
success, a network-class exception (socket.error, socket.timeout,
imaplib.IMAP4.error), or any other exception. -/
inductive Outcome (α : Type) where
  | ok (v : α)
  | net (e : Str)
  | other (e : Str)
deriving DecidableEq

/-- How retry_on_network_error terminates: `success` returns the value;
`raiseNet` re-raises the recorded network exception after exhaustion;
`raiseOther` is the immediate re-raise of a non-network exception;
`raiseNone` models reaching the final `raise last_exception` while the
slot still holds its initial `None` (Python then raises a TypeError that
no operation produced). -/
inductive RRes (α : Type) where
  | success (v : α)
  | raiseNet (e : Str)
  | raiseOther (e : Str)
  | raiseNone
deriving DecidableEq

/-- The `for attempt in range(max_retries)` loop.  `fuel` counts remaining
iterations, `attempt` is the current index, `total` the original
`max_retries`.  The two counters record operation invocations and printed
"Retrying in ..." notices (printed exactly when `attempt < max_retries - 1`;
the final-attempt "All ... attempts failed" line is not a retry notice). -/
def retryGo {α : Type} (op : Nat → Outcome α) (total : Nat) :
    Nat → Nat → Option Str → Nat → Nat → RRes α × Nat × Nat
  | 0, _, last, inv, notices =>
    (match last with | some e => .raiseNet e | none => .raiseNone, inv, notices)
  | fuel + 1, attempt, _, inv, notices =>
    match op attempt with
    | .ok v => (.success v, inv + 1, notices)
    | .net e =>
      if attempt < total - 1 then
        retryGo op total fuel (attempt + 1) (some e) (inv + 1) (notices + 1)
      else
        retryGo op total fuel (attempt + 1) (some e) (inv + 1) notices
    | .other e => (.raiseOther e, inv + 1, notices)

/-- retry_on_network_error.  `max_retries` is an `Int` as in Python;
`range(max_retries)` is empty when it is ≤ 0, and `last_exception` starts
as `None`.  Returns the result together with the invocation count and the
retry-notice count. -/
def retry_on_network_error {α : Type} (op : Nat → Outcome α) (max_retries : Int) :
    RRes α × Nat × Nat :=
  retryGo op max_retries.toNat max_retries.toNat 0 none 0 0

/-! ## Archive codec (download_messages, lines 700-833) -/

/-- An mbox separator line: `line.startswith("From ")`. -/
def isFromLine (l : Str) : Bool := "From ".data.isPrefixOf l

/-- RFC-4155 From-quoting of one line, from
`from_re = re.compile(b"\n(>*)From ")` and the substitution
`from_re.sub(b"\n>\\1From ", text)`: a line of zero or more `>` followed
by `From ` receives one more `>`. -/
def quoteFromLine (l : Str) : Str :=
  if "From ".data.isPrefixOf (l.dropWhile (fun c => c = '>')) then '>' :: l else l

/-- Auxiliary for Python `str.split(d)` with a one-character separator:
returns the first piece and the remaining pieces (empty pieces kept). -/
def splitChAux (d : Char) : Str → Str × List Str
  | [] => ([], [])
  | c :: cs =>
    let r := splitChAux d cs
    if c = d then ([], r.1 :: r.2) else (c :: r.1, r.2)

/-- Python `s.split(d)` for a one-character separator `d`. -/
def splitCh (d : Char) (s : Str) : List Str :=
  (splitChAux d s).1 :: (splitChAux d s).2

/-- The message text written by download_messages (lines 787-806, default
non-thunderbird mode): `text = data.strip().replace(b'\r', b'')` followed
by From-quoting, which is anchored on `\n` and therefore never touches the
first line; the result is given as the list of its lines. -/
def processBody (data : Str) : List Str :=
  match splitCh '\n' ((pyStrip data).filter (fun c => c ≠ '\r')) with
  | [] => []
  | h :: rest => h :: rest.map quoteFromLine

/-- The lines one message contributes after its separator line: the
injected `Message-Id` header when the identity carries the UUID namespace
token (`if UUID in msg_id`, lines 751-754), the processed text, then the
blank line from the terminating `mbox.write(b'\n\n')`. -/
def msgLines (ident : Str) (data : Str) : List Str :=
  (if isSubstring UUID ident then [("Message-Id: ".data ++ ident)] else [])
    ++ processBody data ++ [[]]

/-- One archive record as written by download_messages: the separator line
`From nobody <time.ctime()>` followed by the message lines. -/
def encodeRecord (ts : Str) (ident : Str) (data : Str) : List Str :=
  ("From nobody ".data ++ ts) :: msgLines ident data

/-- download_messages on a fresh archive: the concatenation of the records
for each (identity, fetched message data) pair, in map order, assuming
every fetch succeeds. -/
def downloadAll (ts : Str) (rs : List (Str × Str)) : List Str :=
  rs.flatMap (fun r => encodeRecord ts r.1 r.2)

/-- The first line (if any) does not start an mbox separator.  The
From-quoting regex is anchored on `\n` and cannot protect the first line
of the message text, so well-formedness of a record requires this of the
processed body. -/
def firstNotFrom : List Str → Bool
  | [] => true
  | l :: _ => !(isFromLine l)

/-! ## Local archive scanning (scan_file, lines 836-933) -/

/-- Lines of the current mbox message up to (excluding) the next separator
line, together with the remaining lines. -/
def collectMsg : List Str → List Str × List Str
  | [] => ([], [])
  | l :: ls =>
    if isFromLine l then ([], l :: ls)
    else
      let r := collectMsg ls
      (l :: r.1, r.2)

/-- Fuel-driven mbox splitting (the table of contents built by
`mailbox.mbox`): messages are delimited by lines starting with `From `;
lines before the first separator are ignored.  `fuel = lines.length`
always suffices because each step consumes at least one line. -/
def splitMboxGo : Nat → List Str → List (List Str)
  | _, [] => []
  | 0, _ => []
  | fuel + 1, l :: ls =>
    if isFromLine l then (collectMsg ls).1 :: splitMboxGo fuel (collectMsg ls).2
    else splitMboxGo fuel ls

/-- Split archive lines into the per-message line lists. -/
def splitMbox (ls : List Str) : List (List Str) := splitMboxGo ls.length ls

/-- Does this header line carry the `Message-Id` header name
(case-insensitive, colon required, as matched by `message.get`)? -/
def isMsgIdHeaderLine (l : Str) : Bool :=
  (l.take 11).map Char.toLower == "message-id:".data

/-- A folded-header continuation line (starts with space or tab). -/
def isContLine (l : Str) : Bool :=
  match l with
  | ' ' :: _ => true
  | '\t' :: _ => true
  | _ => false

/-- The header value the email parser stores for a matched header line and
its continuation lines: the text after the colon with leading spaces and
tabs removed, each continuation line appended after a newline. -/
def headerValue (l : Str) (rest : List Str) : Str :=
  (l.drop 11).dropWhile (fun c => c = ' ' || c = '\t')
    ++ (rest.takeWhile isContLine).flatMap (fun c => '\n' :: c)

/-- Find the first `Message-Id:` header among header lines. -/
def findMsgIdHeader : List Str → Option Str
  | [] => none
  | l :: rest =>
    if isMsgIdHeaderLine l then some (headerValue l rest) else findMsgIdHeader rest

/-- `message.get('Message-Id')` on one mbox message: search the header
block (the lines before the first blank line). -/
def getMessageId (msg : List Str) : Option Str :=
  findMsgIdHeader (msg.takeWhile (fun l => l ≠ []))

/-- Per-message identity extraction in scan_file (lines 874-900):
`header = "Message-Id: {}".format(message.get('Message-Id'))` — the string
`"None"` when the header is absent — then strip, collapse whitespace runs
and match MSGID_RE; `none` models the malformed-header warning path. -/
def scanMsg (msg : List Str) : Option Str :=
  msgidMatch (normBlanks (pyStrip
    ("Message-Id: ".data ++ ((getMessageId msg).getD "None".data))))

/-- Membership in the list of already collected identities. -/
def idMem (x : Str) : List Str → Bool
  | [] => false
  | y :: ys => x == y || idMem x ys

/-- A record (identity, fetched message data) as produced by the scanning
pipeline is well formed when (a) the first line of its processed text does
not itself look like an mbox separator (true of any message starting with
a header line), and (b) scanning the record's own lines recovers exactly
its identity — which holds by construction for identities resolved from
the message's `Message-Id` header and for synthesized identities, whose
header line is injected by the encoder. -/
def WFRecord (r : Str × Str) : Prop :=
  firstNotFrom (processBody r.2) = true ∧ scanMsg (msgLines r.1 r.2) = some r.1

instance (r : Str × Str) : Decidable (WFRecord r) := by
  unfold WFRecord; infer_instance

/-- scan_file's iteration over the mbox messages: collect each extracted
identity, first occurrence wins (`if msg_id not in messages.keys()`). -/
def scanFileIds (fileLines : List Str) : List Str :=
  (splitMbox fileLines).foldl
    (fun acc msg =>
      match scanMsg msg with
      | none => acc
      | some mid => if idMem mid acc then acc else acc ++ [mid]) []

/-- scan_file (lines 836-933): destructive overwrite returns the empty map
immediately (lines 842-844, before any file access); a missing file
returns the empty map; otherwise the archive lines are scanned. -/
def scan_file (overwrite : Bool) (file : Option (List Str)) : List Str :=
  if overwrite then []
  else
    match file with
    | none => []
    | some ls => scanFileIds ls

/-! ## Folder name mapping (get_names, lines 1144-1149) -/

/-- Python `'.'.join(pieces)`. -/
def joinDot : List Str → Str
  | [] => []
  | [p] => p
  | p :: q :: rest => p ++ '.' :: joinDot (q :: rest)

/-- The flattened naming policy (line 1149):
`filename = '.'.join(foldername.split(delim)) + '.mbox'`. -/
def mapFolderFlat (delim : Char) (name : Str) : Str :=
  joinDot (splitCh delim name) ++ ".mbox".data

/-! ## Per-folder loop of process_account (lines 1978-2015, backup mode) -/

/-- One folder's inputs in the loop: the remote folder and the identity
list scanned from the local archive file. -/
structure FolderTask where
  folder : Folder
  fileIds : List Str

/-- The new_messages diff (lines 2005-2008): identities present on the
server and absent from the file, keeping scan order and sequence numbers. -/
def diffNew (fol : List (Str × Nat)) (fil : List Str) : List (Str × Nat) :=
  fol.filter (fun p => !(idMem p.1 fil))

/-- Outcome recorded for one folder. -/
inductive FolderOutcome where
  | skipped (msg : Str)
  | completed (newMessages : List (Str × Nat))
deriving DecidableEq

/-- The folder loop: each iteration runs scan_folder, catches only
SkipFolderException (printing it and continuing with the next folder), and
otherwise computes the backup diff; any other exception propagates and
aborts the remaining folders. -/
def processAccount (K : Nat) : List FolderTask → Except Str (List FolderOutcome)
  | [] => .ok []
  | t :: rest =>
    match scan_folder t.folder K with
    | .error (.skipFolder m) =>
      Except.map (fun os => FolderOutcome.skipped m :: os) (processAccount K rest)
    | .error (.otherExc m) => .error m
    | .ok fol =>
      Except.map (fun os => FolderOutcome.completed (diffNew fol t.fileIds) :: os)
        (processAccount K rest)

/-! ## Theorems -/

/-- C9: when destructive overwrite is requested, scan_file returns the
empty identity map immediately, for every possible state of the archive
file (existing or not, with or without records) — it never reads the file
— and hence the backup diff computed from its result is the entire remote
identity map. -/
theorem scan_file_overwrite_returns_empty (file : Option (List Str)) (fol : List (Str × Nat)) :
    scan_file true file = [] ∧ diffNew fol (scan_file true file) = fol :=
  ⟨rfl, List.filter_eq_self.mpr (fun _ _ => rfl)⟩

/-- C10: called with `max_retries ≤ 0`, retry_on_network_error never
invokes the wrapped operation (invocation count 0) and does not return a
value: it falls through to the final re-raise with `last_exception` still
`None`, so the resulting error is not one produced by the operation. -/
theorem retry_nonpositive_never_invokes {α : Type} (op : Nat → Outcome α) (m : Int)
    (hm : m ≤ 0) : retry_on_network_error op m = (.raiseNone, 0, 0) := by
  unfold retry_on_network_error
  rw [Int.toNat_of_nonpos hm]
  rfl

/-- Witness for C10 at `max_retries = -1`. -/
theorem retry_nonpositive_never_invokes_witness :
    (-1 : Int) ≤ 0 ∧
      retry_on_network_error (fun _ => Outcome.ok (0 : Nat)) (-1) = (.raiseNone, 0, 0) :=
  ⟨by decide, retry_nonpositive_never_invokes _ _ (by decide)⟩

/-- C6: an operation that raises a network-class error on its first two
invocations and succeeds on the third, run with `max_retries = 3`, returns
the success value, invokes the operation exactly 3 times, and prints
exactly 2 retry notices. -/
theorem retry_two_transient_then_success {α : Type} (op : Nat → Outcome α) (v : α)
    (e0 e1 : Str) (h0 : op 0 = .net e0) (h1 : op 1 = .net e1) (h2 : op 2 = .ok v) :
    retry_on_network_error op 3 = (.success v, 3, 2) := by
  unfold retry_on_network_error
  norm_num [retryGo, h0, h1, h2]

/-- Witness for C6 with a concrete operation. -/
theorem retry_two_transient_then_success_witness :
    (fun a => if a = 0 then Outcome.net "x".data
      else if a = 1 then Outcome.net "y".data else Outcome.ok 5) 0 = Outcome.net "x".data ∧
    (fun a => if a = 0 then Outcome.net "x".data
      else if a = 1 then Outcome.net "y".data else Outcome.ok 5) 1 = Outcome.net "y".data ∧
    (fun a => if a = 0 then Outcome.net "x".data
      else if a = 1 then Outcome.net "y".data else Outcome.ok 5) 2 = Outcome.ok 5 ∧
    retry_on_network_error
        (fun a => if a = 0 then Outcome.net "x".data
          else if a = 1 then Outcome.net "y".data else Outcome.ok 5) 3
      = (.success 5, 3, 2) :=
  ⟨rfl, rfl, rfl, retry_two_transient_then_success _ 5 "x".data "y".data rfl rfl rfl⟩

/-- C3 counterexample: identical From/Date content with CRLF versus LF
line endings synthesizes *different* identities, because the
canonicalization only rewrites the two-byte sequence CRLF (to TAB) and
leaves a bare LF unchanged. -/
theorem synth_identity_line_ending_cex :
    synthId "From: a@x\r\nDate: Mon".data ≠ synthId "From: a@x\nDate: Mon".data := by
  decide

/-- C3 amended: the synthesis is deterministic — two header blocks that
agree after the code's canonicalization (strip, then replace CRLF by TAB)
synthesize the same identity; CRLF and LF renderings of the same content
do not in general agree after that canonicalization. -/
theorem synth_identity_deterministic_canon (h1 h2 : Str)
    (h : canonHeaders h1 = canonHeaders h2) : synthId h1 = synthId h2 := by
  unfold synthId
  rw [h]

/-- Witness for the amended C3: a CRLF block and the same content with a
literal TAB canonicalize identically, hence synthesize equal identities. -/
theorem synth_identity_deterministic_canon_witness :
    canonHeaders "From: a@x\r\nDate: Mon".data = canonHeaders "From: a@x\tDate: Mon".data ∧
      synthId "From: a@x\r\nDate: Mon".data = synthId "From: a@x\tDate: Mon".data :=
  ⟨by decide, synth_identity_deterministic_canon _ _ (by decide)⟩

/-- C4 counterexample: with another header after the Message-Id header the
resolved value absorbs the other header (the greedy group runs to the end
of the whitespace-collapsed string), and with another header before it the
anchored `re.match` fails entirely (the fallback is taken instead). -/
theorem resolve_identity_other_headers_cex :
    resolveNative "Message-Id: <a@x>\nReceived: by m".data
        = some "<a@x> Received: by m".data
      ∧ "<a@x> Received: by m".data ≠ "<a@x>".data
      ∧ resolveNative "X-Other: z\nMessage-Id: <a@x>".data = none :=
  ⟨by decide, by decide, by decide⟩

/-- C4 amended: for every header block whose whitespace-normalized form is
exactly `Message-Id: ` followed by a nonempty newline-free value — i.e.
the block contains the Message-Id header and nothing else, as delivered by
the `HEADER.FIELDS (MESSAGE-ID)` fetch — resolution returns exactly that
value. -/
theorem resolve_identity_sole_header (block w : Str)
    (hnorm : normBlanks (pyStrip block) = "Message-Id: ".data ++ w)
    (hw : w ≠ []) (hnl : '\n' ∉ w) :
    resolveNative block = some w := by
  unfold resolveNative msgidMatch
  rw [hnorm]
  rw [show ("Message-Id: ".data ++ w).take 12 = "Message-Id: ".data from by
        rw [show 12 = ("Message-Id: ".data).length from by decide]
        exact List.take_left _ _]
  rw [show ("Message-Id: ".data ++ w).drop 12 = w from by
        rw [show 12 = ("Message-Id: ".data).length from by decide]
        exact List.drop_left _ _]
  rw [show ("Message-Id: ".data).map Char.toLower = "message-id: ".data from by decide]
  rw [List.takeWhile_eq_self_iff.mpr (by
        intro c hc
        have hcne : c ≠ '\n' := fun e => hnl (e ▸ hc)
        simp [hcne])]
  rw [if_pos rfl]
  cases w with
  | nil => exact absurd rfl hw
  | cons a as => rfl

/-- Witness for the amended C4. -/
theorem resolve_identity_sole_header_witness :
    normBlanks (pyStrip "Message-Id:  <a@x>\r\n".data) = "Message-Id: ".data ++ "<a@x>".data ∧
    "<a@x>".data ≠ ([] : Str) ∧ '\n' ∉ "<a@x>".data ∧
    resolveNative "Message-Id:  <a@x>\r\n".data = some "<a@x>".data :=
  ⟨by decide, by decide, by decide,
    resolve_identity_sole_header _ _ (by decide) (by decide) (by decide)⟩

/-- C5 counterexample: with hierarchy delimiter `.` the flattened file
name still contains the delimiter (both from the rejoined pieces and from
the fixed `.mbox` extension). -/
theorem map_folder_flat_delim_dot_cex :
    '.' ∈ mapFolderFlat '.' "INBOX.Sent".data := by decide

/-- Neither piece returned by the single-character split contains the
separator character. -/
lemma splitChAux_no_delim (d : Char) (s : Str) :
    d ∉ (splitChAux d s).1 ∧ ∀ p ∈ (splitChAux d s).2, d ∉ p := by
  induction s with
  | nil => simp [splitChAux]
  | cons c cs ih =>
    by_cases h : c = d
    · simp only [splitChAux, if_pos h]
      exact ⟨by simp, by
        intro p hp
        rcases List.mem_cons.mp hp with rfl | hp
        · exact ih.1
        · exact ih.2 p hp⟩
    · simp only [splitChAux, if_neg h]
      refine ⟨?_, ih.2⟩
      intro hmem
      rcases List.mem_cons.mp hmem with rfl | hmem
      · exact h rfl
      · exact ih.1 hmem

/-- `'.'.join` of pieces free of `d ≠ '.'` is free of `d`. -/
lemma joinDot_no_delim (d : Char) (hd : d ≠ '.') :
    ∀ ps : List Str, (∀ p ∈ ps, d ∉ p) → d ∉ joinDot ps
  | [], _ => by simp [joinDot]
  | [p], h => by simpa [joinDot] using h p (by simp)
  | p :: q :: rest, h => by
    simp only [joinDot, List.mem_append, List.mem_cons]
    rintro (hp | rfl | hj)
    · exact h p (by simp) hp
    · exact hd rfl
    · exact joinDot_no_delim d hd (q :: rest) (fun x hx => h x (List.mem_cons_of_mem _ hx))
        (by simpa [joinDot] using hj)

/-- C5 amended: provided the delimiter character does not occur in the
literal extension string `.mbox` (in particular is not `.` itself), the
flattened file name never contains the delimiter. -/
theorem map_folder_flat_no_delim (delim : Char) (name : Str)
    (h : delim ∉ ".mbox".data) : delim ∉ mapFolderFlat delim name := by
  unfold mapFolderFlat
  have hdot : delim ≠ '.' := fun e => h (by rw [e]; decide)
  intro hmem
  rcases List.mem_append.mp hmem with hj | hx
  · refine joinDot_no_delim delim hdot (splitCh delim name) ?_ hj
    intro p hp
    rcases List.mem_cons.mp hp with rfl | hp
    · exact (splitChAux_no_delim delim name).1
    · exact (splitChAux_no_delim delim name).2 p hp
  · exact h hx

/-- Witness for the amended C5. -/
theorem map_folder_flat_no_delim_witness :
    '/' ∉ ".mbox".data ∧ '/' ∉ mapFolderFlat '/' "INBOX/Sent".data :=
  ⟨by decide, map_folder_flat_no_delim '/' _ (by decide)⟩

/-- A successful lookup implies key membership. -/
lemma lookup_some_keyMem (mp : List (Str × Nat)) (x : Str) (v : Nat)
    (h : lookup? mp x = some v) : keyMem x mp = true := by
  induction mp with
  | nil => simp [lookup?] at h
  | cons p ps ih =>
    simp only [lookup?] at h
    simp only [keyMem]
    by_cases hp : p.1 = x
    · subst hp
      simp
    · rw [if_neg (by simpa using hp)] at h
      simp [ih h]

/-- Dict assignment rebinding: mapping every entry with the given key to
the new sequence number makes lookup return the new number. -/
lemma lookup_map_overwrite (mp : List (Str × Nat)) (x : Str) (num : Nat)
    (h : keyMem x mp = true) :
    lookup? (mp.map (fun p => if p.1 == x then (p.1, num) else p)) x = some num := by
  induction mp with
  | nil => simp [keyMem] at h
  | cons p ps ih =>
    simp only [List.map_cons]
    by_cases hp : p.1 = x
    · subst hp
      simp [lookup?]
    · have hbe : (p.1 == x) = false := by simpa using hp
      have hps : keyMem x ps = true := by
        simpa [keyMem, show (x == p.1) = false from by simpa using (Ne.symm hp)] using h
      simp only [hbe, if_false, Bool.false_eq_true]
      simpa [lookup?, hbe] using ih hps

/-- C2 counterexample: two messages (sequence numbers 1 < 2) that both lack
a parseable Message-Id and carry identical fallback headers resolve to the
same synthesized identity, yet scan_folder binds that identity to 2 — the
later occurrence overwrites the earlier one, because the synthesized-path
dict assignment (line 1045) performs no duplicate check. -/
theorem scan_folder_synth_dup_second_wins_cex :
    scan_folder
        { select := .response "OK".data (some 2), batchFail := none,
          msgs := fun _ =>
            { idHeaderRaw := some [], altFetch := some "From: a@x\r\nDate: Mon".data } } 1000
      = .ok [(synthId "From: a@x\r\nDate: Mon".data, 2)] :=
  congrArg Except.ok (by decide)

/-- C2 amended: when a later message resolves *natively* to an identity
already present in the map, it is dropped and the earlier binding is kept
(first sequence number wins); but when a later message resolves through
the *synthesized* fallback to an identity already present, the binding is
overwritten with the later sequence number. -/
theorem scan_folder_dedup_amended (mp : List (Str × Nat)) (x : Str) (v num : Nat)
    (m : FolderMsg) (hb : lookup? mp x = some v) :
    (∀ ds, m.idHeaderRaw = some ds → resolveNative ds = some x →
        lookup? (processMsg mp num m) x = some v)
    ∧ ∀ ds hs, m.idHeaderRaw = some ds → resolveNative ds = none → m.altFetch = some hs →
        synthId hs = x → lookup? (processMsg mp num m) x = some num := by
  constructor
  · intro ds hds hres
    simp only [processMsg, hds, hres]
    unfold insertNative
    rw [if_pos (lookup_some_keyMem _ _ _ hb)]
    exact hb
  · intro ds hs hds hres halt hsyn
    simp only [processMsg, hds, hres, halt]
    unfold insertSynth
    rw [hsyn, if_pos (lookup_some_keyMem _ _ _ hb)]
    exact lookup_map_overwrite _ _ _ (lookup_some_keyMem _ _ _ hb)

/-- Witness for the amended C2 (synthesized-path overwrite at a concrete
map and message). -/
theorem scan_folder_dedup_amended_witness :
    lookup? [(synthId "A: a".data, 1)] (synthId "A: a".data) = some 1 ∧
    lookup?
        (processMsg [(synthId "A: a".data, 1)] 2
          { idHeaderRaw := some [], altFetch := some "A: a".data })
        (synthId "A: a".data) = some 2 :=
  ⟨by simp [lookup?],
   (scan_folder_dedup_amended _ _ 1 2 _ (by simp [lookup?])).2 [] "A: a".data rfl (by decide)
     rfl rfl⟩

/-- C8, part of the proof: whatever goes wrong in selection, scan_folder
fails with a SkipFolderException and nothing else, and the per-folder loop
of process_account turns it into a `skipped` outcome while the other
folders' outcomes are exactly what they would be on their own. -/
theorem scan_folder_select_failure_skips (t : FolderTask) (K : Nat)
    (hfail : SelectFails t.folder) :
    ∃ m, scan_folder t.folder K = .error (.skipFolder m) ∧
      ∀ pre post, processAccount K (pre ++ t :: post) =
        (processAccount K pre).bind (fun a =>
          Except.map (fun b => a ++ FolderOutcome.skipped m :: b) (processAccount K post)) := by
  obtain ⟨m, hm⟩ : ∃ m, scan_folder t.folder K = .error (.skipFolder m) := by
    unfold SelectFails at hfail
    cases hsel : t.folder.select with
    | netError msg =>
      exact ⟨"SELECT failed after retries: ".data ++ msg, by simp [scan_folder, hsel]⟩
    | otherError msg =>
      exact ⟨"Unexpected error selecting folder: ".data ++ msg, by simp [scan_folder, hsel]⟩
    | response typ cnt =>
      rw [hsel] at hfail
      by_cases htyp : typ = "OK".data
      · subst htyp
        rcases hfail with h | h
        · exact absurd rfl h
        · subst h
          exact ⟨"Cannot parse message count".data, by simp [scan_folder, hsel]⟩
      · exact ⟨"SELECT failed: ".data ++ typ, by simp [scan_folder, hsel, htyp]⟩
  refine ⟨m, hm, ?_⟩
  intro pre post
  induction pre with
  | nil =>
    simp only [List.nil_append, processAccount, hm]
    cases hpost : processAccount K post <;> simp [Except.map, Except.bind, processAccount]
  | cons t' pre' ih =>
    simp only [List.cons_append, processAccount, List.append_eq]
    cases hsf : scan_folder t'.folder K with
    | ok fol =>
      rw [ih]
      cases processAccount K pre' <;> cases processAccount K post <;>
        simp [Except.map, Except.bind]
    | error e =>
      cases e with
      | skipFolder msg =>
        rw [ih]
        cases processAccount K pre' <;> cases processAccount K post <;>
          simp [Except.map, Except.bind]
      | otherExc msg => simp [Except.bind]

/-- Witness for C8: a folder whose SELECT answers with a non-OK status. -/
theorem scan_folder_select_failure_skips_witness :
    SelectFails { select := .response "NO".data (some 3), batchFail := none,
                  msgs := fun _ => { idHeaderRaw := none, altFetch := none } } ∧
    ∃ m, scan_folder { select := .response "NO".data (some 3), batchFail := none,
                       msgs := fun _ => { idHeaderRaw := none, altFetch := none } } 7
        = .error (.skipFolder m) ∧
      ∀ pre post,
        processAccount 7 (pre ++
            ⟨{ select := .response "NO".data (some 3), batchFail := none,
               msgs := fun _ => { idHeaderRaw := none, altFetch := none } }, []⟩ :: post) =
          (processAccount 7 pre).bind (fun a =>
            Except.map (fun b => a ++ FolderOutcome.skipped m :: b) (processAccount 7 post)) :=
  ⟨Or.inl (by decide),
   scan_folder_select_failure_skips
     ⟨{ select := .response "NO".data (some 3), batchFail := none,
        msgs := fun _ => { idHeaderRaw := none, altFetch := none } }, []⟩ 7
     (Or.inl (by decide))⟩

/-- A left fold over a concatenation of blocks is the nested fold. -/
lemma foldl_flatMap {α β γ : Type} (g : α → List β) (f : γ → β → γ) (init : γ) (l : List α) :
    (l.flatMap g).foldl f init = l.foldl (fun acc x => (g x).foldl f acc) init := by
  induction l generalizing init with
  | nil => rfl
  | cons x xs ih => simp [List.foldl_append, ih]

/-- The batch ranges tile the message numbers exactly: concatenating the
per-batch ranges starting at `s` yields `s..n`. -/
lemma batchRanges_flat (K : Nat) (hK : 0 < K) (n : Nat) :
    ∀ c s, 1 ≤ s → s ≤ n → c = (n + K - s) / K →
      ((List.range' s c K).map (fun st => (st, min (st + K - 1) n))).flatMap
          (fun r => List.range' r.1 (r.2 + 1 - r.1))
        = List.range' s (n + 1 - s) := by
  intro c
  induction c with
  | zero =>
    intro s h1 h2 hc
    have hlt : n + K - s < K := (Nat.div_eq_zero_iff hK).mp hc.symm
    omega
  | succ c ih =>
    intro s h1 h2 hc
    rw [List.range'_succ]
    simp only [List.map_cons, List.flatMap_cons]
    by_cases hlast : n < s + K
    · have hc1 : (n + K - s) / K = 1 :=
        Nat.div_eq_of_lt_le (by omega) (by omega)
      have hc0 : c = 0 := by omega
      subst hc0
      have hmin : min (s + K - 1) n = n := by omega
      simp [hmin]
    · push_neg at hlast
      have hc' : c = (n + K - (s + K)) / K := by
        have he : n + K - s = (n - s) + K := by omega
        rw [he, Nat.add_div_right _ hK] at hc
        rw [show n + K - (s + K) = n - s from by omega]
        omega
      have hmin : min (s + K - 1) n = s + K - 1 := by omega
      rw [hmin]
      have ihs := ih (s + K) (by omega) (by omega) hc'
      rw [show s + K - 1 + 1 - s = K from by omega, ihs]
      rw [show n + 1 - s = K + (n + 1 - (s + K)) from by omega]
      have happ := List.range'_append s K (n + 1 - (s + K)) 1
      simpa [Nat.add_comm] using happ

/-- The batched fold of scan_folder visits message numbers `1..n` in
order: batching does not change which messages are processed or their
order. -/
lemma scanFolderBatched_eq (msgs : Nat → FolderMsg) (n K : Nat) (hK : 0 < K) :
    scanFolderBatched msgs n K
      = (List.range' 1 n).foldl (fun mp num => processMsg mp num (msgs num)) [] := by
  rcases Nat.eq_zero_or_pos n with rfl | hn
  · have h0 : (K - 1) / K = 0 := (Nat.div_eq_zero_iff hK).mpr (by omega)
    simp [scanFolderBatched, batchRanges, h0, List.range']
  · have hflat : ((List.range' 1 ((n + K - 1) / K) K).map
          (fun st => (st, min (st + K - 1) n))).flatMap
            (fun r => List.range' r.1 (r.2 + 1 - r.1))
        = List.range' 1 n := by
      simpa using batchRanges_flat K hK n ((n + K - 1) / K) 1 (le_refl 1) hn rfl
    have hff := foldl_flatMap (fun r : Nat × Nat => List.range' r.1 (r.2 + 1 - r.1))
        (fun mp num => processMsg mp num (msgs num)) ([] : List (Str × Nat))
        ((List.range' 1 ((n + K - 1) / K) K).map (fun st => (st, min (st + K - 1) n)))
    rw [hflat] at hff
    unfold scanFolderBatched batchRanges
    rw [hff]
    rfl

/-- `keyMem` agrees with membership among the map's keys. -/
lemma keyMem_iff_mem_keys (x : Str) (mp : List (Str × Nat)) :
    keyMem x mp = true ↔ x ∈ mp.map Prod.fst := by
  induction mp with
  | nil => simp [keyMem]
  | cons p ps ih => simp [keyMem, ih]

/-- The native insert grows the map by at most one entry. -/
lemma insertNative_length (mp : List (Str × Nat)) (x : Str) (num : Nat) :
    (insertNative mp x num).length ≤ mp.length + 1 := by
  unfold insertNative
  split <;> simp

/-- The synthesized insert grows the map by at most one entry. -/
lemma insertSynth_length (mp : List (Str × Nat)) (x : Str) (num : Nat) :
    (insertSynth mp x num).length ≤ mp.length + 1 := by
  unfold insertSynth
  split <;> simp

/-- Processing one message grows the map by at most one entry. -/
lemma processMsg_length (mp : List (Str × Nat)) (num : Nat) (m : FolderMsg) :
    (processMsg mp num m).length ≤ mp.length + 1 := by
  rcases hm : m.idHeaderRaw with _ | ds
  · simp [processMsg, hm]
  · rcases hres : resolveNative ds with _ | mid
    · rcases halt : m.altFetch with _ | hs
      · simp [processMsg, hm, hres, halt]
      · simpa [processMsg, hm, hres, halt] using insertSynth_length mp (synthId hs) num
    · simpa [processMsg, hm, hres] using insertNative_length mp mid num

/-- The native insert keeps the keys duplicate-free. -/
lemma insertNative_keys_nodup (mp : List (Str × Nat)) (x : Str) (num : Nat)
    (h : (mp.map Prod.fst).Nodup) : ((insertNative mp x num).map Prod.fst).Nodup := by
  unfold insertNative
  split
  · exact h
  · rename_i hmem
    rw [List.map_append]
    rw [List.nodup_append]
    refine ⟨h, by simp, ?_⟩
    intro y hy hy'
    simp at hy'
    subst hy'
    exact hmem ((keyMem_iff_mem_keys y mp).mpr hy)

/-- The synthesized insert keeps the keys duplicate-free: in the overwrite
case the key list is unchanged. -/
lemma insertSynth_keys_nodup (mp : List (Str × Nat)) (x : Str) (num : Nat)
    (h : (mp.map Prod.fst).Nodup) : ((insertSynth mp x num).map Prod.fst).Nodup := by
  unfold insertSynth
  split
  · have hkeys : ((mp.map (fun p => if p.1 == x then (p.1, num) else p)).map Prod.fst)
        = mp.map Prod.fst := by
      rw [List.map_map]
      apply List.map_congr_left
      intro p _
      by_cases hpx : p.1 = x <;> simp [hpx]
    rw [hkeys]
    exact h
  · rename_i hmem
    rw [List.map_append, List.nodup_append]
    refine ⟨h, by simp, ?_⟩
    intro y hy hy'
    simp at hy'
    subst hy'
    exact hmem ((keyMem_iff_mem_keys y mp).mpr hy)

/-- Processing one message keeps the keys duplicate-free. -/
lemma processMsg_keys_nodup (mp : List (Str × Nat)) (num : Nat) (m : FolderMsg)
    (h : (mp.map Prod.fst).Nodup) : ((processMsg mp num m).map Prod.fst).Nodup := by
  rcases hm : m.idHeaderRaw with _ | ds
  · simpa [processMsg, hm] using h
  · rcases hres : resolveNative ds with _ | mid
    · rcases halt : m.altFetch with _ | hs
      · simpa [processMsg, hm, hres, halt] using h
      · simpa [processMsg, hm, hres, halt] using insertSynth_keys_nodup mp (synthId hs) num h
    · simpa [processMsg, hm, hres] using insertNative_keys_nodup mp mid num h

/-- Folding the per-message step over any number list grows the map by at
most the number of messages. -/
lemma foldProcess_length (msgs : Nat → FolderMsg) :
    ∀ (nums : List Nat) (mp : List (Str × Nat)),
      ((nums.foldl (fun mp num => processMsg mp num (msgs num)) mp)).length
        ≤ mp.length + nums.length := by
  intro nums
  induction nums with
  | nil => simp
  | cons a as ih =>
    intro mp
    have h1 := ih (processMsg mp a (msgs a))
    have h2 := processMsg_length mp a (msgs a)
    simp only [List.foldl_cons, List.length_cons]
    omega

/-- Folding the per-message step preserves duplicate-freedom of the keys. -/
lemma foldProcess_nodup (msgs : Nat → FolderMsg) :
    ∀ (nums : List Nat) (mp : List (Str × Nat)), (mp.map Prod.fst).Nodup →
      ((nums.foldl (fun mp num => processMsg mp num (msgs num)) mp).map Prod.fst).Nodup := by
  intro nums
  induction nums with
  | nil => intro mp h; exact h
  | cons a as ih =>
    intro mp h
    exact ih (processMsg mp a (msgs a)) (processMsg_keys_nodup mp a (msgs a) h)

/-- C7: for a selectable folder of `n` messages scanned with batch size
`K` (with `K < n`) and no fetch failure, scan_folder succeeds with the
batched map; the identity-header fetch calls are exactly the contiguous
batch ranges, of which there are `ceil(n / K) = (n + K - 1) / K`, covering
every message number in `1..n`; and the returned identity map has at most
`n` entries with no duplicate identities. -/
theorem scan_folder_batch_count_and_map (f : Folder) (n K : Nat) (hK : 0 < K) (hKn : K < n)
    (hsel : f.select = .response "OK".data (some n)) (hbf : f.batchFail = none) :
    scan_folder f K = .ok (scanFolderBatched f.msgs n K) ∧
    (batchRanges n K).length = (n + K - 1) / K ∧
    (∀ m, 1 ≤ m → m ≤ n → ∃ r ∈ batchRanges n K, r.1 ≤ m ∧ m ≤ r.2) ∧
    (scanFolderBatched f.msgs n K).length ≤ n ∧
    ((scanFolderBatched f.msgs n K).map Prod.fst).Nodup := by
  refine ⟨by simp [scan_folder, hsel, hbf], by simp [batchRanges], ?_, ?_, ?_⟩
  · intro m h1 h2
    refine ⟨(1 + K * ((m - 1) / K), min (1 + K * ((m - 1) / K) + K - 1) n), ?_, ?_, ?_⟩
    · simp only [batchRanges, List.mem_map]
      refine ⟨1 + K * ((m - 1) / K), ?_, rfl⟩
      rw [List.mem_range']
      refine ⟨(m - 1) / K, ?_, rfl⟩
      have hd : (n + K - 1) / K = (n - 1) / K + 1 := by
        rw [show n + K - 1 = (n - 1) + K from by omega, Nat.add_div_right _ hK]
      have hdle : (m - 1) / K ≤ (n - 1) / K := Nat.div_le_div_right (by omega)
      omega
    · have hmul : K * ((m - 1) / K) ≤ m - 1 := by
        rw [Nat.mul_comm]
        exact Nat.div_mul_le_self (m - 1) K
      omega
    · have h3 : m - 1 < K * ((m - 1) / K + 1) := Nat.lt_mul_div_succ (m - 1) hK
      have h4 : K * ((m - 1) / K + 1) = K * ((m - 1) / K) + K := by ring
      apply le_min <;> omega
  · rw [scanFolderBatched_eq f.msgs n K hK]
    have := foldProcess_length f.msgs (List.range' 1 n) []
    simpa using this
  · rw [scanFolderBatched_eq f.msgs n K hK]
    exact foldProcess_nodup f.msgs (List.range' 1 n) [] (by simp)

/-- Witness for C7: three messages, batch size 2 (two batches `1:2`, `3:3`),
all with the same native identity, giving a one-entry duplicate-free map. -/
theorem scan_folder_batch_count_and_map_witness :
    0 < 2 ∧ 2 < 3 ∧ smallFolder.select = .response "OK".data (some 3) ∧
    smallFolder.batchFail = none ∧
    scan_folder smallFolder 2 = .ok (scanFolderBatched smallFolder.msgs 3 2) ∧
    (batchRanges 3 2).length = (3 + 2 - 1) / 2 ∧
    (∀ m, 1 ≤ m → m ≤ 3 → ∃ r ∈ batchRanges 3 2, r.1 ≤ m ∧ m ≤ r.2) ∧
    (scanFolderBatched smallFolder.msgs 3 2).length ≤ 3 ∧
    ((scanFolderBatched smallFolder.msgs 3 2).map Prod.fst).Nodup := by
  have h := scan_folder_batch_count_and_map smallFolder 3 2 (by decide) (by decide) rfl rfl
  exact ⟨by decide, by decide, rfl, rfl, h.1, h.2.1, h.2.2.1, h.2.2.2.1, h.2.2.2.2⟩

/-- Identity membership distributes over append. -/
lemma idMem_append (x : Str) (a b : List Str) :
    idMem x (a ++ b) = (idMem x a || idMem x b) := by
  induction a with
  | nil => simp [idMem]
  | cons y ys ih => simp [idMem, ih, Bool.or_assoc]

/-- Every separator line written by download_messages starts with `From `. -/
lemma isFromLine_sep (ts : Str) : isFromLine ("From nobody ".data ++ ts) = true := by
  unfold isFromLine
  rw [List.isPrefixOf_iff_prefix]
  exact List.IsPrefix.trans (by decide) (List.prefix_append _ _)

/-- A line starting with a character other than `F` is not a separator. -/
lemma isFromLine_cons_ne (c : Char) (h : c ≠ 'F') (l : Str) : isFromLine (c :: l) = false := by
  unfold isFromLine
  rw [show "From ".data = 'F' :: "rom ".data from rfl]
  have hb : ('F' == c) = false := by simpa using (Ne.symm h)
  simp [List.isPrefixOf, hb]

/-- From-quoted lines never look like a separator. -/
lemma quoteFromLine_not_from (l : Str) : isFromLine (quoteFromLine l) = false := by
  unfold quoteFromLine
  split
  · exact isFromLine_cons_ne '>' (by decide) l
  · rename_i hq
    cases l with
    | nil => rfl
    | cons c cs =>
      by_cases hc : c = 'F'
      · subst hc
        rw [List.dropWhile_cons, if_neg (by decide)] at hq
        exact Bool.eq_false_iff.mpr hq
      · exact isFromLine_cons_ne c hc cs

/-- No line of a record's message body is a separator line: the injected
header starts with `M`, the first text line is constrained by
well-formedness, the remaining text lines are From-quoted, and the record
terminator is blank. -/
lemma msgLines_not_from (ident data : Str)
    (hfirst : firstNotFrom (processBody data) = true) :
    ∀ l ∈ msgLines ident data, isFromLine l = false := by
  intro l hl
  unfold msgLines at hl
  rcases List.mem_append.mp hl with h1 | h2
  · rcases List.mem_append.mp h1 with hinj | hbody
    · have hl' : l = "Message-Id: ".data ++ ident := by
        revert hinj
        split <;> simp
      rw [hl', show "Message-Id: ".data ++ ident = 'M' :: ("essage-Id: ".data ++ ident) from rfl]
      exact isFromLine_cons_ne 'M' (by decide) _
    · have hpb : processBody data
          = (splitChAux '\n' ((pyStrip data).filter (fun c => c ≠ '\r'))).1
            :: ((splitChAux '\n' ((pyStrip data).filter (fun c => c ≠ '\r'))).2).map
              quoteFromLine := rfl
      rw [hpb] at hbody hfirst
      rcases List.mem_cons.mp hbody with rfl | htail
      · simpa [firstNotFrom] using hfirst
      · rcases List.mem_map.mp htail with ⟨l', _, rfl⟩
        exact quoteFromLine_not_from l'
  · have : l = [] := by simpa using h2
    subst this
    rfl

/-- collectMsg returns the whole message when none of its lines is a
separator and the remaining input is empty or starts with one. -/
lemma collectMsg_append_sep (m : List Str) (hm : ∀ l ∈ m, isFromLine l = false) :
    ∀ rest, (rest = [] ∨ isFromLine (rest.headD []) = true) →
      collectMsg (m ++ rest) = (m, rest) := by
  induction m with
  | nil =>
    intro rest hrest
    rcases hrest with rfl | hr
    · rfl
    · cases rest with
      | nil => rfl
      | cons r rs =>
        simp only [List.headD_cons] at hr
        simp [collectMsg, hr]
  | cons a as ih =>
    intro rest hrest
    have ha : isFromLine a = false := hm a (by simp)
    simp only [List.cons_append, collectMsg, ha, Bool.false_eq_true, if_false,
      List.append_eq]
    rw [ih (fun l hl => hm l (by simp [hl])) rest hrest]

/-- Splitting the downloaded archive recovers exactly the per-record
message lines, in order. -/
lemma splitMboxGo_download (ts : Str) :
    ∀ (rs : List (Str × Str)) (fuel : Nat),
      (∀ r ∈ rs, ∀ l ∈ msgLines r.1 r.2, isFromLine l = false) →
      (downloadAll ts rs).length ≤ fuel →
      splitMboxGo fuel (downloadAll ts rs) = rs.map (fun r => msgLines r.1 r.2) := by
  intro rs
  induction rs with
  | nil => intro fuel _ _; cases fuel <;> rfl
  | cons r rs' ih =>
    intro fuel hnf hlen
    have hda : downloadAll ts (r :: rs')
        = ("From nobody ".data ++ ts) :: (msgLines r.1 r.2 ++ downloadAll ts rs') := by
      simp [downloadAll, encodeRecord]
    cases fuel with
    | zero =>
      rw [hda] at hlen
      simp at hlen
    | succ fuel' =>
      rw [hda]
      have hrest : downloadAll ts rs' = []
          ∨ isFromLine ((downloadAll ts rs').headD []) = true := by
        cases rs' with
        | nil => exact Or.inl rfl
        | cons r2 rs2 =>
          right
          rw [show downloadAll ts (r2 :: rs2)
              = ("From nobody ".data ++ ts) :: (msgLines r2.1 r2.2 ++ downloadAll ts rs2)
            from by simp [downloadAll, encodeRecord]]
          simpa using isFromLine_sep ts
      have hcm := collectMsg_append_sep (msgLines r.1 r.2) (hnf r (by simp))
        (downloadAll ts rs') hrest
      simp only [splitMboxGo, isFromLine_sep ts, if_true, hcm, List.map_cons]
      congr 1
      refine ih fuel' (fun x hx => hnf x (List.mem_cons_of_mem _ hx)) ?_
      rw [hda] at hlen
      simp only [List.length_cons, List.length_append] at hlen
      omega

/-- Folding scan_file's per-message step over well-formed records collects
exactly their identities, in order. -/
lemma scanFold_ids :
    ∀ (rs : List (Str × Str)) (acc : List Str),
      (∀ r ∈ rs, scanMsg (msgLines r.1 r.2) = some r.1) →
      (rs.map Prod.fst).Nodup →
      (∀ r ∈ rs, idMem r.1 acc = false) →
      (rs.map (fun r => msgLines r.1 r.2)).foldl
          (fun acc msg =>
            match scanMsg msg with
            | none => acc
            | some mid => if idMem mid acc then acc else acc ++ [mid]) acc
        = acc ++ rs.map Prod.fst := by
  intro rs
  induction rs with
  | nil => intro acc _ _ _; simp
  | cons r rs' ih =>
    intro acc hscan hnd hacc
    simp only [List.map_cons, List.foldl_cons, hscan r (by simp), hacc r (by simp),
      Bool.false_eq_true, if_false]
    have hnd' : (rs'.map Prod.fst).Nodup := by
      simp only [List.map_cons, List.nodup_cons] at hnd
      exact hnd.2
    have hhead : r.1 ∉ rs'.map Prod.fst := by
      simp only [List.map_cons, List.nodup_cons] at hnd
      exact hnd.1
    rw [ih (acc ++ [r.1]) (fun x hx => hscan x (by simp [hx])) hnd' ?hindep]
    · simp
    case hindep =>
      intro x hx
      rw [idMem_append]
      have h1 : idMem x.1 acc = false := hacc x (by simp [hx])
      have h2 : (x.1 == r.1) = false := by
        have hne : x.1 ≠ r.1 := by
          intro e
          exact hhead (e ▸ List.mem_map_of_mem Prod.fst hx)
        simpa using hne
      simp [idMem, h1, h2]

/-- C1: downloading N records with pairwise-distinct identities into a
fresh archive and scanning the result with scan_file returns an identity
map of size exactly N containing each identity.  Well-formedness of each
record (the invariant of the scanning pipeline that produced it) says the
processed text does not begin with a separator-looking line and that
scanning the record's own lines recovers its identity (native identities
come from the message's own Message-Id header; synthesized identities are
injected by the encoder). -/
theorem download_scan_roundtrip (ts : Str) (rs : List (Str × Str))
    (hdist : (rs.map Prod.fst).Nodup) (hwf : ∀ r ∈ rs, WFRecord r) :
    (scan_file false (some (downloadAll ts rs))).length = rs.length ∧
    ∀ r ∈ rs, r.1 ∈ scan_file false (some (downloadAll ts rs)) := by
  have hkey : scan_file false (some (downloadAll ts rs)) = rs.map Prod.fst := by
    show scanFileIds (downloadAll ts rs) = rs.map Prod.fst
    unfold scanFileIds splitMbox
    rw [splitMboxGo_download ts rs _
      (fun r hr => msgLines_not_from r.1 r.2 (hwf r hr).1) (le_refl _)]
    exact scanFold_ids rs [] (fun r hr => (hwf r hr).2) hdist (fun r _ => rfl)
  rw [hkey]
  exact ⟨by simp, fun r hr => List.mem_map_of_mem Prod.fst hr⟩

/-- Witness for C1: one record with a native identity carried in its own
headers and one record with a synthesized (UUID-tagged) identity. -/
theorem download_scan_roundtrip_witness :
    (([(("<a@x>".data : Str), ("Message-Id: <a@x>\r\nB: b\r\n\r\nbody".data : Str)),
       ("<19AF1258-1AAF-44EF-9D9A-731079D6FAD7.00>".data, "From: a\nTo: b".data)].map
        Prod.fst).Nodup) ∧
    (∀ r ∈ [(("<a@x>".data : Str), ("Message-Id: <a@x>\r\nB: b\r\n\r\nbody".data : Str)),
       ("<19AF1258-1AAF-44EF-9D9A-731079D6FAD7.00>".data, "From: a\nTo: b".data)],
      WFRecord r) ∧
    (scan_file false (some (downloadAll "Mon Oct 12 10:00:00 2026".data
        [(("<a@x>".data : Str), ("Message-Id: <a@x>\r\nB: b\r\n\r\nbody".data : Str)),
         ("<19AF1258-1AAF-44EF-9D9A-731079D6FAD7.00>".data, "From: a\nTo: b".data)]))).length
      = 2 ∧
    ∀ r ∈ [(("<a@x>".data : Str), ("Message-Id: <a@x>\r\nB: b\r\n\r\nbody".data : Str)),
       ("<19AF1258-1AAF-44EF-9D9A-731079D6FAD7.00>".data, "From: a\nTo: b".data)],
      r.1 ∈ scan_file false (some (downloadAll "Mon Oct 12 10:00:00 2026".data
        [(("<a@x>".data : Str), ("Message-Id: <a@x>\r\nB: b\r\n\r\nbody".data : Str)),
         ("<19AF1258-1AAF-44EF-9D9A-731079D6FAD7.00>".data, "From: a\nTo: b".data)])) := by
  have h := download_scan_roundtrip "Mon Oct 12 10:00:00 2026".data
    [(("<a@x>".data : Str), ("Message-Id: <a@x>\r\nB: b\r\n\r\nbody".data : Str)),
     ("<19AF1258-1AAF-44EF-9D9A-731079D6FAD7.00>".data, "From: a\nTo: b".data)]
    (by decide) (by decide)
  exact ⟨by decide, by decide, h.1, h.2⟩

/-- Sanity theorem for the SHA-1 embedding: the standard test vector
`sha1("abc") = a9993e364706816aba3e25717850c26c9cd0d89d`. -/
theorem sha1_abc_test_vector :
    hexdigest (sha1 (utf8 "abc".data))
      = "a9993e364706816aba3e25717850c26c9cd0d89d".data := by decide

end Imapbackup
